import Mathlib

/-!
Verification of the scam-report record store (`src/server.js`).

The store keeps the whole collection of reports in one JSON document
(`data/scammers.json`) and the evidence images in a flat `uploads/`
directory.  The embedding below models:

* JavaScript strings by `String`, with `String.prototype.toLowerCase`,
  `trim` and `includes` re-implemented structurally on the character
  list so that they evaluate inside the kernel;
* the creation timestamp `Date.now()` by a `Nat` (milliseconds), and the
  stored ISO-8601 `createdAt` string by that same millisecond value
  (ISO-8601 round-trips to the timestamp, and the code only ever parses
  `createdAt` back into a `Date` before comparing);
* `Date.now().toString()` by `natToDecString`, the decimal
  representation built from `Nat.digits`;
* the backing document by `StoreDoc`: `ok reports` when
  `JSON.parse(readFileSync ...)` succeeds, `missingFile` when the file
  is absent, `unreadable` when reading or parsing throws (this includes
  an empty file, since `JSON.parse("")` throws); `readScammers` catches
  every error and returns `[]`, and `writeScammers` serializes the given
  collection (the success path of `fs.writeFileSync`);
* the uploads directory by a `Finset String` of filenames;
  `fs.unlinkSync` guarded by `fs.existsSync` becomes `Finset.erase`;
* `Array.prototype.sort` with the comparator
  `(a, b) => new Date(b.createdAt) - new Date(a.createdAt)` by
  insertion sort with the relation `createdAtGE` (the route only
  promises "sorted by createdAt descending"; ties are unspecified);
* `findIndex` followed by `splice(index, 1)` by finding the first
  report whose `id` matches and removing that first occurrence.
-/

/-- JavaScript `String.prototype.toLowerCase`, modelled as per-character
lowercasing of the character list. -/
def strToLower (s : String) : String :=
  String.mk (s.data.map Char.toLower)

/-- JavaScript `String.prototype.trim`: drop whitespace from both ends. -/
def strTrim (s : String) : String :=
  String.mk (((s.data.dropWhile Char.isWhitespace).reverse.dropWhile
    Char.isWhitespace).reverse)

/-- JavaScript `String.prototype.includes`: `sub` occurs contiguously in `s`. -/
def strIncludes (s sub : String) : Bool :=
  decide (sub.data <:+: s.data)

/-- JavaScript `Number.prototype.toString` on a natural number
(`Date.now().toString()` in the source): the decimal representation. -/
def natToDecString (n : Nat) : String :=
  if n = 0 then "0" else String.mk (((Nat.digits 10 n).map Nat.digitChar).reverse)

/-- One stored report, one element of the `scammers.json` array
(`newScammer` object literal, `src/server.js` lines 114-123). -/
structure Report where
  id : String
  name : String
  scamType : String
  phone : String
  website : String
  description : String
  evidence : List String
  createdAt : Nat
  deriving Repr, DecidableEq

/-- The state of the backing document `data/scammers.json` as seen by a
read: a parsed array, a missing file, or contents on which reading or
`JSON.parse` throws (an empty file falls in the last case). -/
inductive StoreDoc where
  | ok (reports : List Report)
  | missingFile
  | unreadable
  deriving Repr, DecidableEq

/-- `readScammers` (`src/server.js` lines 60-68): return the parsed
array, and on any error return `[]`. -/
def readScammers : StoreDoc → List Report
  | .ok reports => reports
  | .missingFile => []
  | .unreadable => []

/-- `writeScammers` (`src/server.js` lines 70-78), success path: the
document now holds exactly the serialized collection. -/
def writeScammers (scammers : List Report) : StoreDoc :=
  .ok scammers

/-- The destructured request body of `POST /api/scammer`
(`src/server.js` line 103): each field may be absent. -/
structure CreateBody where
  name : Option String
  scamType : Option String
  phone : Option String
  website : Option String
  description : Option String
  deriving Repr, DecidableEq

/-- JavaScript falsiness of a possibly-absent string: `undefined` and
`""` are falsy (`!name`, `!scamType` on line 106). -/
def strFalsy : Option String → Bool
  | none => true
  | some s => s == ""

/-- JavaScript `x ? x.trim() : ''` for a possibly-absent string
(lines 118-120). -/
def optTrim : Option String → String
  | none => ""
  | some s => if s == "" then "" else strTrim s

/-- Outcome of `POST /api/scammer`: a 400 validation rejection, or the
created report together with the persisted document. -/
inductive CreateResult where
  | validationError (message : String)
  | created (scammer : Report) (newDoc : StoreDoc)
  deriving Repr, DecidableEq

/-- The `newScammer` object literal (`src/server.js` lines 114-123),
built from the body, the staged evidence filenames, the `Date.now()`
value `tNow` (line 115) and the `new Date()` value `tCreated`
(line 122). -/
def mkScammer (body : CreateBody) (evidenceFiles : List String)
    (tNow tCreated : Nat) : Report :=
  { id := natToDecString tNow
    name := strTrim (body.name.getD "")
    scamType := strTrim (body.scamType.getD "")
    phone := optTrim body.phone
    website := optTrim body.website
    description := optTrim body.description
    evidence := evidenceFiles
    createdAt := tCreated }

/-- The `POST /api/scammer` handler (`src/server.js` lines 101-146):
validate, build `newScammer`, append it to the collection read from the
document, and persist. -/
def create (body : CreateBody) (evidenceFiles : List String)
    (tNow tCreated : Nat) (doc : StoreDoc) : CreateResult :=
  if strFalsy body.name || strFalsy body.scamType then
    CreateResult.validationError "Nama dan jenis penipuan wajib diisi"
  else
    CreateResult.created (mkScammer body evidenceFiles tNow tCreated)
      (writeScammers (readScammers doc ++ [mkScammer body evidenceFiles tNow tCreated]))

/-- Server-side mutable state: the backing document and the set of
filenames present in the `uploads/` directory. -/
structure ServerState where
  doc : StoreDoc
  uploads : Finset String

/-- Outcome of `DELETE /api/scammer/:id`: a 404, or the updated state. -/
inductive DeleteResult where
  | notFound
  | deleted (newState : ServerState)

/-- The `forEach` over `scammer.evidence` (`src/server.js` lines
162-169): unlink each listed file if it exists; a missing file is
skipped. -/
def unlinkEvidence (evidence : List String) (uploads : Finset String) : Finset String :=
  evidence.foldl (fun fs f => fs.erase f) uploads

/-- `scammers.splice(scammerIndex, 1)` where `scammerIndex` is
`findIndex(s => s.id === id)`: remove the first report whose `id`
matches. -/
def removeFirstWithId (id : String) : List Report → List Report
  | [] => []
  | s :: rest => if s.id == id then rest else s :: removeFirstWithId id rest

/-- The `DELETE /api/scammer/:id` handler (`src/server.js` lines
149-185): look up the first report with the given id (404 when there is
none), unlink its evidence files, remove it, persist. -/
def deleteScammer (id : String) (st : ServerState) : DeleteResult :=
  match (readScammers st.doc).find? (fun s => s.id == id) with
  | none => .notFound
  | some scammer =>
      .deleted ⟨writeScammers (removeFirstWithId id (readScammers st.doc)),
        unlinkEvidence scammer.evidence st.uploads⟩

/-- The sort relation of `(a, b) => new Date(b.createdAt) - new Date(a.createdAt)`:
`a` precedes `b` when `a` was created no earlier than `b`. -/
def createdAtGE (a b : Report) : Prop :=
  b.createdAt ≤ a.createdAt

instance : DecidableRel createdAtGE :=
  fun a b => Nat.decLe b.createdAt a.createdAt

instance : IsTotal Report createdAtGE :=
  ⟨fun a b => le_total b.createdAt a.createdAt⟩

instance : IsTrans Report createdAtGE :=
  ⟨fun _ _ _ h1 h2 => le_trans h2 h1⟩

/-- `scammers.sort((a, b) => new Date(b.createdAt) - new Date(a.createdAt))`:
sort by `createdAt`, newest first. -/
def sortByCreatedAtDesc (l : List Report) : List Report :=
  l.insertionSort createdAtGE

/-- The `GET /api/scammers` handler (`src/server.js` lines 88-98):
read the collection and return it newest first. -/
def listScammers (doc : StoreDoc) : List Report :=
  sortByCreatedAtDesc (readScammers doc)

/-- The `GET /api/scammers` handler as a state transformer: it returns
the sorted view and performs no write (`writeScammers` is never called
on this route). -/
def listEndpoint (st : ServerState) : List Report × ServerState :=
  (listScammers st.doc, st)

/-- The filter predicate of `GET /api/search` (`src/server.js` lines
199-204), applied to the already-lowercased `searchTerm`: name,
scamType and description are compared lowercased, phone is compared
as stored, and phone/description are truthiness-guarded. -/
def matchesQuery (searchTerm : String) (s : Report) : Bool :=
  strIncludes (strToLower s.name) searchTerm ||
  strIncludes (strToLower s.scamType) searchTerm ||
  ((s.phone != "") && strIncludes s.phone searchTerm) ||
  ((s.description != "") && strIncludes (strToLower s.description) searchTerm)

/-- The `GET /api/search` handler (`src/server.js` lines 188-214): an
absent or empty `q` yields `[]`; otherwise filter by `matchesQuery`
on `q.toLowerCase()` and sort newest first. -/
def searchScammers (q : Option String) (doc : StoreDoc) : List Report :=
  match q with
  | none => []
  | some q =>
      if q == "" then []
      else sortByCreatedAtDesc
        ((readScammers doc).filter (matchesQuery (strToLower q)))

/-! ### Concrete fixtures used to instantiate the theorems -/

/-- A valid create body. -/
def budiBody : CreateBody :=
  ⟨some "Budi", some "Investasi", none, none, none⟩

/-- A second valid create body, differing from `budiBody`. -/
def sariBody : CreateBody :=
  ⟨some "Sari", some "Belanja online", none, none, none⟩

/-- A body whose `name` is whitespace-only (truthy in JavaScript, empty
after trimming). -/
def spasiBody : CreateBody :=
  ⟨some " ", some "Investasi", none, none, none⟩

/-- A valid create body with untrimmed optional fields. -/
def aliaBody : CreateBody :=
  ⟨some " Alia ", some "Investasi bodong", some " 0812 ", none, some "Penipu"⟩

/-- A stored report whose `phone` contains upper-case characters. -/
def phoneReport : Report :=
  ⟨"77", "Tono", "Telepon", "08AB12", "", "", [], 50⟩

/-- A stored report with two evidence files. -/
def evReport : Report :=
  ⟨"7", "Budi", "Investasi", "", "", "", ["bukti1.png", "bukti2.png"], 100⟩

/-- An uploads directory holding the two evidence files and an
unrelated one. -/
def someUploads : Finset String :=
  {"bukti1.png", "bukti2.png", "lain.png"}

/-- A server state holding `evReport` and `someUploads`. -/
def evState : ServerState :=
  ⟨.ok [evReport], someUploads⟩

/-- Three reports with strictly increasing creation times. -/
def rT1 : Report :=
  ⟨"1", "Andi", "Arisan", "", "", "", [], 10⟩

/-- Second report of the increasing-time triple. -/
def rT2 : Report :=
  ⟨"2", "Beni", "Pinjol", "", "", "", [], 20⟩

/-- Third report of the increasing-time triple. -/
def rT3 : Report :=
  ⟨"3", "Cici", "Hadiah", "", "", "", [], 30⟩

/-- A report matching a query only on its `website` field. -/
def webReport : Report :=
  ⟨"9", "Tono", "Web", "", "http://ALICE.example", "", [], 5⟩

/-! ### Helper lemmas -/

/-- A string is empty exactly when its character list is. -/
theorem string_data_eq_nil_iff (s : String) : s.data = [] ↔ s = "" := by
  constructor
  · intro h
    cases s with
    | mk d => cases h; rfl
  · intro h
    subst h
    rfl

/-- Lowercasing keeps a string nonempty. -/
theorem strToLower_ne_empty {q : String} (h : q ≠ "") : strToLower q ≠ "" := by
  intro hc
  apply h
  rw [← string_data_eq_nil_iff] at hc ⊢
  simpa [strToLower] using hc

/-- Nothing nonempty occurs inside the empty string. -/
theorem strIncludes_empty_eq_false {sub : String} (h : sub ≠ "") :
    strIncludes "" sub = false := by
  have hd : sub.data ≠ [] := fun hc => h ((string_data_eq_nil_iff sub).mp hc)
  simp [strIncludes, List.infix_nil, hd]

/-- `Nat.digitChar` is injective on digits. -/
theorem digitChar_injOn : ∀ a < 10, ∀ b < 10,
    Nat.digitChar a = Nat.digitChar b → a = b := by decide

/-- Mapping `Nat.digitChar` over digit lists is injective. -/
theorem map_digitChar_inj : ∀ l1 l2 : List Nat, (∀ d ∈ l1, d < 10) →
    (∀ d ∈ l2, d < 10) → l1.map Nat.digitChar = l2.map Nat.digitChar → l1 = l2 := by
  intro l1
  induction l1 with
  | nil =>
      intro l2 _ _ h
      cases l2 with
      | nil => rfl
      | cons b t2 => simp at h
  | cons a t ih =>
      intro l2 h1 h2 h
      cases l2 with
      | nil => simp at h
      | cons b t2 =>
          simp only [List.map_cons, List.cons.injEq] at h
          have ha : a = b :=
            digitChar_injOn a (h1 a (by simp)) b (h2 b (by simp)) h.1
          have ht : t = t2 :=
            ih t2 (fun d hd => h1 d (by simp [hd])) (fun d hd => h2 d (by simp [hd])) h.2
          rw [ha, ht]

/-- The decimal representation of a natural number is never empty. -/
theorem natToDecString_ne_empty (n : Nat) : natToDecString n ≠ "" := by
  unfold natToDecString
  split
  · decide
  · rename_i hn
    intro hc
    have hd := congrArg String.data hc
    simp only [String.data] at hd
    have hmap : (Nat.digits 10 n).map Nat.digitChar = [] := by
      simpa using congrArg List.reverse hd
    have hdig : Nat.digits 10 n = [] := by simpa using hmap
    exact (Nat.digits_ne_nil_iff_ne_zero.mpr hn) hdig

/-- Distinct natural numbers have distinct decimal representations. -/
theorem natToDecString_injective : Function.Injective natToDecString := by
  intro m n h
  unfold natToDecString at h
  by_cases hm : m = 0 <;> by_cases hn : n = 0
  · rw [hm, hn]
  · exfalso
    rw [if_pos hm, if_neg hn] at h
    have hd := congrArg String.data h
    simp only [String.data] at hd
    have hmap : (Nat.digits 10 n).map Nat.digitChar = ['0'] := by
      have h3 := congrArg List.reverse hd
      simpa using h3.symm
    have hdig : Nat.digits 10 n = [0] := by
      refine map_digitChar_inj _ [0]
        (fun d hd => Nat.digits_lt_base (by norm_num) hd) (by simp) ?_
      rw [hmap]; rfl
    have h5 := Nat.ofDigits_digits 10 n
    rw [hdig] at h5
    simp [Nat.ofDigits] at h5
    exact hn h5.symm
  · exfalso
    rw [if_neg hm, if_pos hn] at h
    have hd := congrArg String.data h
    simp only [String.data] at hd
    have hmap : (Nat.digits 10 m).map Nat.digitChar = ['0'] := by
      have h3 := congrArg List.reverse hd
      simpa using h3
    have hdig : Nat.digits 10 m = [0] := by
      refine map_digitChar_inj _ [0]
        (fun d hd => Nat.digits_lt_base (by norm_num) hd) (by simp) ?_
      rw [hmap]; rfl
    have h5 := Nat.ofDigits_digits 10 m
    rw [hdig] at h5
    simp [Nat.ofDigits] at h5
    exact hm h5.symm
  · rw [if_neg hm, if_neg hn] at h
    have hd := congrArg String.data h
    simp only [String.data] at hd
    have h2 : (Nat.digits 10 m).map Nat.digitChar = (Nat.digits 10 n).map Nat.digitChar := by
      have h3 := congrArg List.reverse hd
      simpa using h3
    have h3 := map_digitChar_inj _ _
      (fun d hd => Nat.digits_lt_base (by norm_num) hd)
      (fun d hd => Nat.digits_lt_base (by norm_num) hd) h2
    exact Nat.digits.injective 10 h3

/-- `x ? x.trim() : ''` equals trimming with `""` for the absent case. -/
theorem optTrim_eq_strTrim_getD (o : Option String) :
    optTrim o = strTrim (o.getD "") := by
  cases o with
  | none => rfl
  | some s =>
      by_cases h : s = ""
      · subst h; rfl
      · simp [optTrim, Option.getD, h]

/-- Membership is preserved by the read-time sort. -/
theorem mem_sortByCreatedAtDesc {r : Report} {l : List Report} :
    r ∈ sortByCreatedAtDesc l ↔ r ∈ l :=
  List.mem_insertionSort createdAtGE

/-- The read-time sort permutes the collection. -/
theorem sortByCreatedAtDesc_perm (l : List Report) :
    List.Perm (sortByCreatedAtDesc l) l :=
  List.perm_insertionSort createdAtGE l

/-- The read-time sort is sorted by `createdAt`, newest first. -/
theorem sortByCreatedAtDesc_sorted (l : List Report) :
    List.Sorted createdAtGE (sortByCreatedAtDesc l) :=
  List.sorted_insertionSort createdAtGE l

/-- Unlinking never adds files to the uploads directory. -/
theorem mem_unlinkEvidence_imp :
    ∀ (ev : List String) (fs : Finset String) (f : String),
      f ∈ unlinkEvidence ev fs → f ∈ fs := by
  intro ev
  induction ev with
  | nil => intro fs f h; exact h
  | cons e rest ih =>
      intro fs f h
      have h2 : f ∈ fs.erase e := ih (fs.erase e) f h
      exact Finset.mem_of_mem_erase h2

/-- A file absent from the directory stays absent through unlinking. -/
theorem not_mem_unlinkEvidence_of_not_mem
    {ev : List String} {fs : Finset String} {f : String} (h : f ∉ fs) :
    f ∉ unlinkEvidence ev fs :=
  fun hc => h (mem_unlinkEvidence_imp ev fs f hc)

/-- Every file listed in the evidence is gone after unlinking. -/
theorem not_mem_unlinkEvidence :
    ∀ (ev : List String) (fs : Finset String) (f : String),
      f ∈ ev → f ∉ unlinkEvidence ev fs := by
  intro ev
  induction ev with
  | nil => intro fs f h; simp at h
  | cons e rest ih =>
      intro fs f h
      rcases List.mem_cons.mp h with he | hr
      · subst he
        by_cases hfr : f ∈ rest
        · exact ih (fs.erase f) f hfr
        · show f ∉ unlinkEvidence rest (fs.erase f)
          exact not_mem_unlinkEvidence_of_not_mem (Finset.not_mem_erase f fs)
      · exact ih (fs.erase e) f hr

/-- When exactly one report carries the id, the lookup finds it, removal
drops exactly that report, and no report with the id survives. -/
theorem find_removeFirst_spec (id : String) (r : Report) :
    ∀ l : List Report, r ∈ l → r.id = id →
      l.countP (fun s => s.id == id) = 1 →
      l.find? (fun s => s.id == id) = some r ∧
      r ∉ removeFirstWithId id l ∧
      (∀ r' ∈ l, r' ≠ r → r' ∈ removeFirstWithId id l) ∧
      (∀ r' ∈ removeFirstWithId id l, r' ∈ l) ∧
      (removeFirstWithId id l).countP (fun s => s.id == id) = 0 := by
  intro l
  induction l with
  | nil => intro h; simp at h
  | cons x xs ih =>
      intro hmem hid hcount
      by_cases hx : x.id = id
      · have h1 : List.countP (fun s => s.id == id) (x :: xs)
            = List.countP (fun s => s.id == id) xs + 1 := by
          simp [List.countP_cons, hx]
        have htail : xs.countP (fun s => s.id == id) = 0 := by
          rw [h1] at hcount
          omega
        have hnone : ∀ s ∈ xs, ¬ ((s.id == id) = true) := by
          intro s hs
          have := List.countP_eq_zero.mp htail s hs
          simpa using this
        have hrx : r = x := by
          rcases List.mem_cons.mp hmem with h | h
          · exact h
          · exact absurd (by simp [hid]) (hnone r h)
        have hrem : removeFirstWithId id (x :: xs) = xs := by
          simp [removeFirstWithId, hx]
        refine ⟨?_, ?_, ?_, ?_, ?_⟩
        · simp [List.find?_cons, hx, hrx]
        · rw [hrem, hrx]
          intro hc
          exact (hnone x hc) (by simp [hx])
        · intro r' hr' hne
          rw [hrem]
          rcases List.mem_cons.mp hr' with h | h
          · exact absurd (h.trans hrx.symm) hne
          · exact h
        · intro r' hr'
          rw [hrem] at hr'
          exact List.mem_cons_of_mem x hr'
        · rw [hrem]; exact htail
      · have h1 : List.countP (fun s => s.id == id) (x :: xs)
            = List.countP (fun s => s.id == id) xs := by
          simp [List.countP_cons, hx]
        have hcount' : xs.countP (fun s => s.id == id) = 1 := by
          rw [h1] at hcount
          exact hcount
        have hrx : r ≠ x := fun hc => hx (by rw [← hc, hid])
        have hmem' : r ∈ xs := by
          rcases List.mem_cons.mp hmem with h | h
          · exact absurd h hrx
          · exact h
        obtain ⟨ihfind, ihnot, ihkeep, ihsub, ihcount⟩ := ih hmem' hid hcount'
        have hrem : removeFirstWithId id (x :: xs) = x :: removeFirstWithId id xs := by
          simp [removeFirstWithId, hx]
        refine ⟨?_, ?_, ?_, ?_, ?_⟩
        · simp [List.find?_cons, hx, ihfind]
        · rw [hrem]
          intro hc
          rcases List.mem_cons.mp hc with h | h
          · exact hrx h
          · exact ihnot h
        · intro r' hr' hne
          rw [hrem]
          rcases List.mem_cons.mp hr' with h | h
          · exact h ▸ List.mem_cons_self x _
          · exact List.mem_cons_of_mem x (ihkeep r' h hne)
        · intro r' hr'
          rw [hrem] at hr'
          rcases List.mem_cons.mp hr' with h | h
          · exact h ▸ List.mem_cons_self x _
          · exact List.mem_cons_of_mem x (ihsub r' h)
        · have h2 : List.countP (fun s => s.id == id) (x :: removeFirstWithId id xs)
              = List.countP (fun s => s.id == id) (removeFirstWithId id xs) := by
            simp [List.countP_cons, hx]
          rw [hrem, h2]
          exact ihcount

/-- With the query already lowercased and nonempty, the truthiness
guards on `phone` and `description` are redundant: the filter predicate
is the plain four-way disjunction of substring tests. -/
theorem matchesQuery_eq_true_iff {st : String} (hst : st ≠ "") (r : Report) :
    matchesQuery st r = true ↔
      (strIncludes (strToLower r.name) st = true ∨
       strIncludes (strToLower r.scamType) st = true ∨
       strIncludes r.phone st = true ∨
       strIncludes (strToLower r.description) st = true) := by
  have hphone : ((r.phone != "") && strIncludes r.phone st) = strIncludes r.phone st := by
    by_cases h : r.phone = ""
    · rw [h]
      simp [strIncludes_empty_eq_false hst]
    · simp [h]
  have hdesc : ((r.description != "") && strIncludes (strToLower r.description) st)
      = strIncludes (strToLower r.description) st := by
    by_cases h : r.description = ""
    · rw [h]
      have h0 : strToLower "" = "" := rfl
      rw [h0]
      simp [strIncludes_empty_eq_false hst]
    · simp [h]
  unfold matchesQuery
  rw [hphone, hdesc]
  simp [Bool.or_eq_true, or_assoc]

/-! ### Claim theorems -/

/-- C7: when the backing collection document is missing (or its contents
cannot be read/parsed, which covers an empty file), List and Search do
not fail: they behave as over the empty collection and return an empty
sequence. -/
theorem empty_store_reads_empty :
    listScammers .missingFile = [] ∧ listScammers .unreadable = [] ∧
    (∀ q : Option String, searchScammers q .missingFile = []) ∧
    (∀ q : Option String, searchScammers q .unreadable = []) := by
  refine ⟨rfl, rfl, ?_, ?_⟩ <;>
  · intro q
    cases q with
    | none => rfl
    | some s => simp [searchScammers, readScammers, sortByCreatedAtDesc]

/-- C9: the read helper returns the empty collection on every read
failure (missing file as well as unreadable/corrupt contents), so a
Create performed over an unreadable document persists a collection
containing only the newly created report. -/
theorem unreadable_store_create_resets
    (body : CreateBody) (ev : List String) (tNow tCreated : Nat)
    (hname : strFalsy body.name = false) (htype : strFalsy body.scamType = false) :
    readScammers .unreadable = [] ∧ readScammers .missingFile = [] ∧
    create body ev tNow tCreated .unreadable =
      .created (mkScammer body ev tNow tCreated)
        (.ok [mkScammer body ev tNow tCreated]) := by
  refine ⟨rfl, rfl, ?_⟩
  simp [create, hname, htype, writeScammers, readScammers]

/-- C9 witness: a concrete valid Create over an unreadable document. -/
theorem unreadable_store_create_resets_witness :
    readScammers .unreadable = [] ∧ readScammers .missingFile = [] ∧
    create budiBody ["bukti.png"] 5 6 .unreadable =
      .created (mkScammer budiBody ["bukti.png"] 5 6)
        (.ok [mkScammer budiBody ["bukti.png"] 5 6]) :=
  unreadable_store_create_resets budiBody ["bukti.png"] 5 6 (by decide) (by decide)

/-- C2 counterexample: a whitespace-only `name` is truthy, so validation
passes and the report is created with an empty trimmed name — the claim
that such a Create fails with a ValidationError is false. -/
theorem whitespace_name_passes_validation :
    strTrim " " = "" ∧
    create spasiBody [] 5 5 (.ok []) =
      .created (mkScammer spasiBody [] 5 5) (.ok [mkScammer spasiBody [] 5 5]) ∧
    (mkScammer spasiBody [] 5 5).name = "" := by
  refine ⟨by decide, rfl, by decide⟩

/-- C2 amended: Create fails with the single fixed message
"Nama dan jenis penipuan wajib diisi" (naming both required fields, not
the specific missing one) exactly when `name` or `scamType` is absent or
is the empty string; fields are not trimmed before this check, so a
whitespace-only value passes validation. -/
theorem create_validationError_iff
    (body : CreateBody) (ev : List String) (tNow tCreated : Nat) (doc : StoreDoc) :
    (create body ev tNow tCreated doc =
        .validationError "Nama dan jenis penipuan wajib diisi" ↔
      (body.name = none ∨ body.name = some "" ∨
       body.scamType = none ∨ body.scamType = some "")) ∧
    (∀ msg, create body ev tNow tCreated doc = .validationError msg →
      msg = "Nama dan jenis penipuan wajib diisi") := by
  have hfalsy : ∀ o : Option String, strFalsy o = true ↔ (o = none ∨ o = some "") := by
    intro o
    cases o with
    | none => simp [strFalsy]
    | some s => simp [strFalsy]
  by_cases hb : (strFalsy body.name || strFalsy body.scamType) = true
  · refine ⟨⟨fun _ => ?_, fun _ => by simp [create, hb]⟩, fun msg hmsg => ?_⟩
    · rw [Bool.or_eq_true] at hb
      rcases hb with h | h
      · rcases (hfalsy body.name).mp h with h2 | h2
        · exact Or.inl h2
        · exact Or.inr (Or.inl h2)
      · rcases (hfalsy body.scamType).mp h with h2 | h2
        · exact Or.inr (Or.inr (Or.inl h2))
        · exact Or.inr (Or.inr (Or.inr h2))
    · simp [create, hb] at hmsg
      exact hmsg.symm
  · refine ⟨⟨fun hc => ?_, fun hOr => ?_⟩, fun msg hmsg => ?_⟩
    · simp [create, hb] at hc
    · exfalso
      apply hb
      rw [Bool.or_eq_true]
      rcases hOr with h | h | h | h
      · exact Or.inl ((hfalsy body.name).mpr (Or.inl h))
      · exact Or.inl ((hfalsy body.name).mpr (Or.inr h))
      · exact Or.inr ((hfalsy body.scamType).mpr (Or.inl h))
      · exact Or.inr ((hfalsy body.scamType).mpr (Or.inr h))
    · simp [create, hb] at hmsg

/-- C2 amended witness: Create with an absent `name` at a concrete
input. -/
theorem create_validationError_iff_witness :
    (create ⟨none, some "Investasi", none, none, none⟩ [] 3 3 .missingFile =
        .validationError "Nama dan jenis penipuan wajib diisi" ↔
      ((⟨none, some "Investasi", none, none, none⟩ : CreateBody).name = none ∨
       (⟨none, some "Investasi", none, none, none⟩ : CreateBody).name = some "" ∨
       (⟨none, some "Investasi", none, none, none⟩ : CreateBody).scamType = none ∨
       (⟨none, some "Investasi", none, none, none⟩ : CreateBody).scamType = some "")) ∧
    (∀ msg, create ⟨none, some "Investasi", none, none, none⟩ [] 3 3 .missingFile =
        .validationError msg →
      msg = "Nama dan jenis penipuan wajib diisi") :=
  create_validationError_iff ⟨none, some "Investasi", none, none, none⟩ [] 3 3 .missingFile

/-- C1 counterexample: two Creates executed at the same millisecond
timestamp produce two distinct reports carrying the same generated id,
both present in the persisted collection. -/
theorem duplicate_id_same_millisecond :
    create budiBody [] 1700000000000 1700000000000 (.ok []) =
      .created (mkScammer budiBody [] 1700000000000 1700000000000)
        (.ok [mkScammer budiBody [] 1700000000000 1700000000000]) ∧
    create sariBody [] 1700000000000 1700000000000
        (.ok [mkScammer budiBody [] 1700000000000 1700000000000]) =
      .created (mkScammer sariBody [] 1700000000000 1700000000000)
        (.ok [mkScammer budiBody [] 1700000000000 1700000000000,
              mkScammer sariBody [] 1700000000000 1700000000000]) ∧
    mkScammer budiBody [] 1700000000000 1700000000000 ≠
      mkScammer sariBody [] 1700000000000 1700000000000 ∧
    (mkScammer budiBody [] 1700000000000 1700000000000).id =
      (mkScammer sariBody [] 1700000000000 1700000000000).id := by
  refine ⟨rfl, rfl, ?_, rfl⟩
  intro h
  have hn := congrArg Report.name h
  simp only [mkScammer] at hn
  exact absurd hn (by decide)

/-- Any successful Create returns exactly the `newScammer` record built
from its inputs. -/
theorem create_created_mkScammer
    {body : CreateBody} {ev : List String} {tNow tCreated : Nat}
    {doc : StoreDoc} {r : Report} {newDoc : StoreDoc}
    (h : create body ev tNow tCreated doc = .created r newDoc) :
    r = mkScammer body ev tNow tCreated := by
  unfold create at h
  split at h
  · exact absurd h (by simp)
  · cases h
    rfl

/-- C1 amended: the generated id is the decimal string of the Create
call's millisecond timestamp, so the ids of two successful Creates are
equal exactly when their `Date.now()` timestamps are equal: ids are
unique across Creates at distinct milliseconds, but two Creates in the
same millisecond collide. -/
theorem create_id_eq_iff_timestamp_eq
    {b1 b2 : CreateBody} {ev1 ev2 : List String} {t1 c1 t2 c2 : Nat}
    {d1 d2 : StoreDoc} {r1 r2 : Report} {n1 n2 : StoreDoc}
    (h1 : create b1 ev1 t1 c1 d1 = .created r1 n1)
    (h2 : create b2 ev2 t2 c2 d2 = .created r2 n2) :
    r1.id = r2.id ↔ t1 = t2 := by
  rw [create_created_mkScammer h1, create_created_mkScammer h2]
  simp only [mkScammer]
  exact ⟨fun h => natToDecString_injective h, fun h => by rw [h]⟩

/-- C1 amended witness: two concrete Creates at distinct milliseconds. -/
theorem create_id_eq_iff_timestamp_eq_witness :
    (mkScammer budiBody [] 33 33).id = (mkScammer sariBody [] 44 44).id ↔ 33 = 44 :=
  create_id_eq_iff_timestamp_eq
    (show create budiBody [] 33 33 (.ok []) =
      .created (mkScammer budiBody [] 33 33) (.ok [mkScammer budiBody [] 33 33]) from rfl)
    (show create sariBody [] 44 44 (.ok []) =
      .created (mkScammer sariBody [] 44 44) (.ok [mkScammer sariBody [] 44 44]) from rfl)

/-- C4: a Create with non-empty `name` and `scamType` over the empty
collection succeeds; the subsequent List holds exactly the one created
report, whose text fields are the trimmed inputs (empty for absent
optional fields), whose evidence is the given filename list in order,
whose id is non-empty, and whose `createdAt` is no earlier than the
start of the call. -/
theorem create_list_roundtrip
    (body : CreateBody) (ev : List String) (n m : String)
    (tNow tCreated start : Nat)
    (hn : body.name = some n) (hne : n ≠ "")
    (hm : body.scamType = some m) (hmne : m ≠ "")
    (hstart : start ≤ tCreated) :
    ∃ r : Report,
      create body ev tNow tCreated (.ok []) = .created r (.ok [r]) ∧
      listScammers (.ok [r]) = [r] ∧
      r.name = strTrim n ∧ r.scamType = strTrim m ∧
      r.phone = strTrim (body.phone.getD "") ∧
      r.website = strTrim (body.website.getD "") ∧
      r.description = strTrim (body.description.getD "") ∧
      r.evidence = ev ∧ r.id ≠ "" ∧ start ≤ r.createdAt := by
  refine ⟨mkScammer body ev tNow tCreated, ?_, ?_, ?_, ?_, ?_, ?_, ?_, rfl, ?_, ?_⟩
  · have h1 : strFalsy body.name = false := by
      rw [hn]; simpa [strFalsy] using hne
    have h2 : strFalsy body.scamType = false := by
      rw [hm]; simpa [strFalsy] using hmne
    simp [create, h1, h2, writeScammers, readScammers]
  · simp [listScammers, readScammers, sortByCreatedAtDesc, List.insertionSort,
      List.orderedInsert]
  · simp [mkScammer, hn]
  · simp [mkScammer, hm]
  · simp [mkScammer, optTrim_eq_strTrim_getD]
  · simp [mkScammer, optTrim_eq_strTrim_getD]
  · simp [mkScammer, optTrim_eq_strTrim_getD]
  · exact natToDecString_ne_empty tNow
  · exact hstart

/-- C4 witness: a concrete Create followed by List. -/
theorem create_list_roundtrip_witness :
    ∃ r : Report,
      create aliaBody ["b1.png", "b2.png"] 21 22 (.ok []) = .created r (.ok [r]) ∧
      listScammers (.ok [r]) = [r] ∧
      r.name = strTrim " Alia " ∧ r.scamType = strTrim "Investasi bodong" ∧
      r.phone = strTrim (aliaBody.phone.getD "") ∧
      r.website = strTrim (aliaBody.website.getD "") ∧
      r.description = strTrim (aliaBody.description.getD "") ∧
      r.evidence = ["b1.png", "b2.png"] ∧ r.id ≠ "" ∧ 20 ≤ r.createdAt :=
  create_list_roundtrip aliaBody ["b1.png", "b2.png"] " Alia " "Investasi bodong"
    21 22 20 rfl (by decide) rfl (by decide) (by decide)

/-- C6: List never writes the document; it returns a permutation of the
stored collection sorted by `createdAt` descending, and three reports
created at strictly increasing times come back newest first. -/
theorem list_sorted_by_createdAt_desc :
    (∀ st : ServerState, (listEndpoint st).2 = st) ∧
    (∀ doc : StoreDoc, List.Perm (listScammers doc) (readScammers doc) ∧
      List.Sorted createdAtGE (listScammers doc)) ∧
    (∀ r1 r2 r3 : Report, r1.createdAt < r2.createdAt → r2.createdAt < r3.createdAt →
      listScammers (.ok [r1, r2, r3]) = [r3, r2, r1]) := by
  refine ⟨fun st => rfl,
    fun doc => ⟨sortByCreatedAtDesc_perm _, sortByCreatedAtDesc_sorted _⟩, ?_⟩
  intro r1 r2 r3 h12 h23
  have n23 : ¬ createdAtGE r2 r3 := by simp [createdAtGE]; omega
  have n13 : ¬ createdAtGE r1 r3 := by simp [createdAtGE]; omega
  have n12 : ¬ createdAtGE r1 r2 := by simp [createdAtGE]; omega
  simp [listScammers, readScammers, sortByCreatedAtDesc, List.insertionSort,
    List.orderedInsert, n23, n13, n12]

/-- C6 witness: a concrete state and a concrete increasing-time triple. -/
theorem list_sorted_by_createdAt_desc_witness :
    (listEndpoint evState).2 = evState ∧
    listScammers (.ok [rT1, rT2, rT3]) = [rT3, rT2, rT1] :=
  ⟨list_sorted_by_createdAt_desc.1 evState,
   list_sorted_by_createdAt_desc.2.2 rT1 rT2 rT3 (by decide) (by decide)⟩

/-- C10: the search filter never examines `website`: the predicate is
unchanged under any replacement of the field, and a report on which the
query matches none of name, scamType, phone, description is not
returned even when the query occurs in its website. -/
theorem search_ignores_website :
    (∀ (st : String) (r : Report) (w : String),
      matchesQuery st { r with website := w } = matchesQuery st r) ∧
    (∀ (q : String) (doc : StoreDoc) (r : Report),
      strIncludes (strToLower r.website) (strToLower q) = true →
      strIncludes (strToLower r.name) (strToLower q) = false →
      strIncludes (strToLower r.scamType) (strToLower q) = false →
      strIncludes r.phone (strToLower q) = false →
      strIncludes (strToLower r.description) (strToLower q) = false →
      r ∉ searchScammers (some q) doc) := by
  constructor
  · intro st r w
    rfl
  · intro q doc r hw h1 h2 h3 h4 hmem
    by_cases hq : (q == "") = true
    · simp [searchScammers, hq] at hmem
    · have hq' : (q == "") = false := by simpa using hq
      rw [show searchScammers (some q) doc = sortByCreatedAtDesc
          ((readScammers doc).filter (matchesQuery (strToLower q))) by
        simp [searchScammers, hq']] at hmem
      have hmq : matchesQuery (strToLower q) r = true :=
        (List.mem_filter.mp (mem_sortByCreatedAtDesc.mp hmem)).2
      simp [matchesQuery, h1, h2, h3, h4] at hmq

/-- C10 witness: a report whose website alone contains the query. -/
theorem search_ignores_website_witness :
    matchesQuery "ali" { webReport with website := "0" } = matchesQuery "ali" webReport ∧
    webReport ∉ searchScammers (some "ALICE") (.ok [webReport]) :=
  ⟨search_ignores_website.1 "ali" webReport "0",
   search_ignores_website.2 "ALICE" (.ok [webReport]) webReport
     (by decide) (by decide) (by decide) (by decide) (by decide)⟩

/-- C3 counterexample: the query "AB" is a case-sensitive substring of
the stored phone "08AB12", yet Search("AB") returns nothing, because the
code compares the phone against the lowercased query "ab" — the claim
that the query is matched against phone as given is false. -/
theorem phone_match_uses_lowercased_query :
    strIncludes phoneReport.phone "AB" = true ∧
    searchScammers (some "AB") (.ok [phoneReport]) = [] := by
  exact ⟨by decide, by decide⟩

/-- C3 amended: for a non-empty query, Search returns exactly the stored
reports for which the lowercased query occurs in the lowercased name,
scamType or description, or occurs case-sensitively in the phone as
stored (the phone is compared against the lowercased query, not the
query as given); the result is sorted by `createdAt` descending. -/
theorem search_match_characterization (q : String) (doc : StoreDoc) (hq : q ≠ "") :
    (∀ r : Report, r ∈ searchScammers (some q) doc ↔
      (r ∈ readScammers doc ∧
        (strIncludes (strToLower r.name) (strToLower q) = true ∨
         strIncludes (strToLower r.scamType) (strToLower q) = true ∨
         strIncludes r.phone (strToLower q) = true ∨
         strIncludes (strToLower r.description) (strToLower q) = true))) ∧
    List.Sorted createdAtGE (searchScammers (some q) doc) := by
  have hq' : (q == "") = false := by simpa using hq
  have hst : strToLower q ≠ "" := strToLower_ne_empty hq
  have hunfold : searchScammers (some q) doc =
      sortByCreatedAtDesc ((readScammers doc).filter (matchesQuery (strToLower q))) := by
    simp [searchScammers, hq']
  constructor
  · intro r
    rw [hunfold, mem_sortByCreatedAtDesc, List.mem_filter]
    exact and_congr_right (fun _ => matchesQuery_eq_true_iff hst r)
  · rw [hunfold]
    exact sortByCreatedAtDesc_sorted _

/-- C3 amended witness: a concrete query over a concrete store. -/
theorem search_match_characterization_witness :
    (∀ r : Report, r ∈ searchScammers (some "Tono") (.ok [phoneReport]) ↔
      (r ∈ readScammers (.ok [phoneReport]) ∧
        (strIncludes (strToLower r.name) (strToLower "Tono") = true ∨
         strIncludes (strToLower r.scamType) (strToLower "Tono") = true ∨
         strIncludes r.phone (strToLower "Tono") = true ∨
         strIncludes (strToLower r.description) (strToLower "Tono") = true))) ∧
    List.Sorted createdAtGE (searchScammers (some "Tono") (.ok [phoneReport])) :=
  search_match_characterization "Tono" (.ok [phoneReport]) (by decide)

/-- C5: Delete of an id carried by no stored report fails with NotFound;
when exactly one stored report carries the id, Delete succeeds, removes
every file in that report's evidence list from the uploads directory
(deleting no unrelated file), removes the report (and only it) from the
persisted collection so it no longer appears in List, and a second
Delete of the same id fails with NotFound. -/
theorem delete_spec :
    (∀ (id : String) (st : ServerState),
      (∀ r ∈ readScammers st.doc, r.id ≠ id) → deleteScammer id st = .notFound) ∧
    (∀ (id : String) (st : ServerState) (r : Report),
      r ∈ readScammers st.doc → r.id = id →
      (readScammers st.doc).countP (fun s => s.id == id) = 1 →
      ∃ st' : ServerState, deleteScammer id st = .deleted st' ∧
        (∀ f ∈ r.evidence, f ∉ st'.uploads) ∧
        (∀ f ∈ st'.uploads, f ∈ st.uploads) ∧
        r ∉ readScammers st'.doc ∧
        r ∉ listScammers st'.doc ∧
        (∀ r' ∈ readScammers st.doc, r' ≠ r → r' ∈ readScammers st'.doc) ∧
        (∀ r' ∈ readScammers st'.doc, r' ∈ readScammers st.doc) ∧
        deleteScammer id st' = .notFound) := by
  constructor
  · intro id st hnone
    have hfind : (readScammers st.doc).find? (fun s => s.id == id) = none := by
      rw [List.find?_eq_none]
      intro x hx
      simpa using hnone x hx
    simp [deleteScammer, hfind]
  · intro id st r hmem hid hcount
    obtain ⟨hfind, hnot, hkeep, hsub, hzero⟩ :=
      find_removeFirst_spec id r (readScammers st.doc) hmem hid hcount
    refine ⟨⟨writeScammers (removeFirstWithId id (readScammers st.doc)),
        unlinkEvidence r.evidence st.uploads⟩, ?_, ?_, ?_, ?_, ?_, ?_, ?_, ?_⟩
    · simp [deleteScammer, hfind]
    · intro f hf
      exact not_mem_unlinkEvidence r.evidence st.uploads f hf
    · intro f hf
      exact mem_unlinkEvidence_imp r.evidence st.uploads f hf
    · exact hnot
    · intro hc
      exact hnot (mem_sortByCreatedAtDesc.mp hc)
    · intro r' hr' hne
      exact hkeep r' hr' hne
    · intro r' hr'
      exact hsub r' hr'
    · have hfind2 : (removeFirstWithId id (readScammers st.doc)).find?
          (fun s => s.id == id) = none := by
        rw [List.find?_eq_none]
        intro x hx
        have := List.countP_eq_zero.mp hzero x hx
        simpa using this
      have hread : readScammers (writeScammers (removeFirstWithId id (readScammers st.doc)))
          = removeFirstWithId id (readScammers st.doc) := rfl
      simp [deleteScammer, hread, hfind2]

/-- C5 witness: deleting a present id (two evidence files) and an absent
id on concrete states. -/
theorem delete_spec_witness :
    deleteScammer "404" evState = .notFound ∧
    (∃ st' : ServerState, deleteScammer "7" evState = .deleted st' ∧
      (∀ f ∈ evReport.evidence, f ∉ st'.uploads) ∧
      (∀ f ∈ st'.uploads, f ∈ evState.uploads) ∧
      evReport ∉ readScammers st'.doc ∧
      evReport ∉ listScammers st'.doc ∧
      (∀ r' ∈ readScammers evState.doc, r' ≠ evReport → r' ∈ readScammers st'.doc) ∧
      (∀ r' ∈ readScammers st'.doc, r' ∈ readScammers evState.doc) ∧
      deleteScammer "7" st' = .notFound) :=
  ⟨delete_spec.1 "404" evState (by decide),
   delete_spec.2 "7" evState evReport (by decide) rfl (by decide)⟩
